import Mathlib

/-!
Verification of the 2D shape-to-triangle-mesh geometry helpers of
`examples/dev/triangle_edge.py` (napari), against the natural-language spec.

Modelling conventions:
* numpy float64 arrays of 2D points are modelled as `List Vec2` with
  `Vec2 := ℝ × ℝ` (exact real arithmetic; the spec's claims are about the
  exact geometry, not rounding).
* numpy "vector with origin and direction" records of shape `(N, 2, 2)`
  (`rec[:, 0]` the origin, `rec[:, 1]` the direction) are modelled as lists
  of pairs `(origin, direction)`.
* A direction produced by a division whose denominator is zero is a
  non-finite value (NaN/Inf) in numpy; we model such a direction as
  `Option.none`, and a finite direction `d` as `some d`.  numpy's division
  does not raise, so the functions stay total and list-valued.
-/

/-- A 2D point / vector (numpy row of two float64 components). -/
abbrev Vec2 : Type := ℝ × ℝ

/-- Euclidean norm of a 2D vector, `np.linalg.norm`. -/
noncomputable def vnorm (v : Vec2) : ℝ := Real.sqrt (v.1 ^ 2 + v.2 ^ 2)

/-- Dot product of 2D vectors, `np.dot`. -/
def dotv (a b : Vec2) : ℝ := a.1 * b.1 + a.2 * b.2

/-- Rotation by +90 degrees: `(x, y) ↦ (-y, x)`. -/
def rot90 (v : Vec2) : Vec2 := (-v.2, v.1)

/-- `v / np.linalg.norm(v)`: `none` models the NaN/Inf row numpy produces
when the norm is zero (which happens exactly when `v = 0`). -/
noncomputable def normalizeV (v : Vec2) : Option Vec2 :=
  if v = 0 then none else some ((vnorm v)⁻¹ • v)

/-- The unit vector pointing from `a` to `b` (defined when `a ≠ b`). -/
noncomputable def unitDir (a b : Vec2) : Vec2 := (vnorm (b - a))⁻¹ • (b - a)

/-- An (origin, direction) record; the direction is `none` when numpy would
have produced a non-finite (NaN/Inf) row. -/
abbrev OrderVec : Type := Vec2 × Option Vec2

/-- `path_[1:] - path_[:-1]`: the list of consecutive differences. -/
def diffList (path : List Vec2) : List Vec2 :=
  (List.range (path.length - 1)).map fun i => path.getD (i + 1) 0 - path.getD i 0

/-- `generate_order_vectors(path_, closed)` of `examples/dev/triangle_edge.py`:

    n = path_[1:] - path_[:-1]
    norm = np.linalg.norm(n, axis=1, keepdims=True)
    normals = n / norm
    vec = np.empty((path_.shape[0], 2, 2))
    vec[:, 0] = path_
    vec[:-1, 1] = normals
    if closed:
        vec[-1, 1] = (path_[0] - path_[-1]) / np.linalg.norm(path_[-1] - path_[0])
    else:
        vec[-1, 1] = -vec[-2, 1]
    return vec

`np.linalg.norm(path_[-1] - path_[0]) = vnorm (p₀ - p_last)` since the norm
is symmetric, so the closed branch is `normalizeV (p₀ - p_last)`.
(For `path_.shape[0] = 1` and `closed = False` the numpy code raises an
IndexError on `vec[-2]`; no claim touches that case.) -/
noncomputable def generate_order_vectors (path : List Vec2) (closed : Bool) :
    List OrderVec :=
  let N := path.length
  let normals : List (Option Vec2) := (diffList path).map normalizeV
  let lastDir : Option Vec2 :=
    if closed then normalizeV (path.getD 0 0 - path.getD (N - 1) 0)
    else (normals.getD (N - 2) none).map fun d => -d
  (List.range N).map fun i =>
    (path.getD i 0, if i = N - 1 then lastDir else normals.getD i none)

/-- `generate_miter_helper_vectors(normal_vector)` of
`examples/dev/triangle_edge.py`:

    vec2 = normal_vector.copy()
    vec2[:, 1] *= 0.5
    vec3 = vec2.copy()
    vec3[:, 1] *= -1
    vec3[:, 1] = np.roll(vec3[:, 1], 1, axis=0)
    vec3[:, 0] += vec2[:, 1]
    return np.concatenate([vec2, vec3], axis=0)

`np.roll(·, 1)` maps row `i` to row `(i - 1) mod N`, written here with the
natural-number encoding `(i + (N - 1)) % N`. -/
noncomputable def generate_miter_helper_vectors (nv : List (Vec2 × Vec2)) :
    List (Vec2 × Vec2) :=
  let N := nv.length
  let vec2 := nv.map fun r => (r.1, (1 / 2 : ℝ) • r.2)
  let vec3 := (List.range N).map fun i =>
    ((nv.getD i 0).1 + (1 / 2 : ℝ) • (nv.getD i 0).2,
     -((1 / 2 : ℝ) • (nv.getD ((i + (N - 1)) % N) 0).2))
  vec2 ++ vec3

/-- `generate_orthogonal_vectors(normal_vector)` of
`examples/dev/triangle_edge.py`:

    vec2 = normal_vector.copy()
    vec2[:, 1] *= 0.5
    vec5 = vec2.copy()
    vec5[:, 0] += vec2[:, 1]
    vec5[:, 1, 0] = -vec2[:, 1, 1]
    vec5[:, 1, 1] = vec2[:, 1, 0]
    return vec5

The direction update is exactly the +90 degree rotation of the halved
direction. -/
noncomputable def generate_orthogonal_vectors (nv : List (Vec2 × Vec2)) :
    List (Vec2 × Vec2) :=
  nv.map fun r => (r.1 + (1 / 2 : ℝ) • r.2, rot90 ((1 / 2 : ℝ) • r.2))

/-- A triangle as an index triple `(a, b, c)` into a vertex buffer. -/
abbrev Tri : Type := ℕ × ℕ × ℕ

/-- Common body of `generate_edge_triangle_borders` and
`generate_face_triangle_borders`: for each triangle emit the three border
records `(a1, b1-a1), (b1, c1-b1), (c1, a1-c1)` where `a1 b1 c1` are the
triangle corners looked up through `vert`. -/
def triangleBorders (vert : ℕ → Vec2) (triangles : List Tri) :
    List (Vec2 × Vec2) :=
  triangles.flatMap fun t =>
    let a1 := vert t.1
    let b1 := vert t.2.1
    let c1 := vert t.2.2
    [(a1, b1 - a1), (b1, c1 - b1), (c1, a1 - c1)]

/-- `generate_edge_triangle_borders(centers, offsets, triangles)` of
`examples/dev/triangle_edge.py`: corner `j` is `centers[j] + offsets[j]`. -/
def generate_edge_triangle_borders (centers offsets : List Vec2)
    (triangles : List Tri) : List (Vec2 × Vec2) :=
  triangleBorders (fun j => centers.getD j 0 + offsets.getD j 0) triangles

/-- `generate_face_triangle_borders(vertices, triangles)` of
`examples/dev/triangle_edge.py`: corner `j` is `vertices[j]`. -/
def generate_face_triangle_borders (vertices : List Vec2)
    (triangles : List Tri) : List (Vec2 × Vec2) :=
  triangleBorders (fun j => vertices.getD j 0) triangles

/-- The zig-zag stress path `sharp` of `examples/dev/triangle_edge.py`,
line 121. -/
def sharpPath : List Vec2 :=
  [(1, 1), (10, 0), (1, -1), (0, -10), (-1, -1), (-10, 0), (-1, 1), (0, 10)]

/- ### Spec-modelled edge-mesh generator

`generate_2D_edge_meshes` is imported by the source from
`napari.layers.shapes._shapes_utils`, whose body is not part of this source
tree; the definitions below are modelled from the spec (sections 4.3, 4.4
and 8) instead. -/

/-- Modelled from the spec: segment count of a path, `N` segments when
closed (including the wraparound segment), `N - 1` when open. -/
def segCount (path : List Vec2) (closed : Bool) : ℕ :=
  if closed then path.length else path.length - 1

/-- Modelled from the spec: unit tangent of segment `s` (from point `s` to
point `s + 1`, wrapping to point `0` for the closed wraparound segment). -/
noncomputable def segTangent (path : List Vec2) (s : ℕ) : Vec2 :=
  unitDir (path.getD s 0) (path.getD ((s + 1) % path.length) 0)

/-- Modelled from the spec: segment normal = tangent rotated 90 degrees. -/
noncomputable def segNormalAt (path : List Vec2) (s : ℕ) : Vec2 :=
  rot90 (segTangent path s)

/-- Index of the segment entering point `i`, `(i - 1) mod N` in
natural-number encoding. -/
def prevSegIdx (N i : ℕ) : ℕ := (i + (N - 1)) % N

/-- Modelled from the spec: normal of the segment entering join `i`. -/
noncomputable def joinPrevNormal (path : List Vec2) (i : ℕ) : Vec2 :=
  segNormalAt path (prevSegIdx path.length i)

/-- Modelled from the spec: normal of the segment leaving join `i`. -/
noncomputable def joinNextNormal (path : List Vec2) (i : ℕ) : Vec2 :=
  segNormalAt path i

/-- Modelled from the spec: the join normal is the bisector of the two
adjacent segment normals (their average). -/
noncomputable def bisectorAt (path : List Vec2) (i : ℕ) : Vec2 :=
  (1 / 2 : ℝ) • (joinPrevNormal path i + joinNextNormal path i)

/-- The denominator `bisector · segment_normal` of the miter formula
(dotted with the outgoing segment normal). -/
noncomputable def miterDenom (path : List Vec2) (i : ℕ) : ℝ :=
  dotv (bisectorAt path i) (joinNextNormal path i)

/-- Modelled from the spec: the half-width offset at a join is
`bisector / (bisector · segment_normal)`. -/
noncomputable def miterOffsetAt (path : List Vec2) (i : ℕ) : Vec2 :=
  (miterDenom path i)⁻¹ • bisectorAt path i

/-- A resolved join: either a single mitered offset point (the ribbon pair
is `±off`), or a bevel fallback carrying the two un-mitered segment-normal
half-width offsets. -/
inductive Join where
  | miter (p off : Vec2)
  | bevel (p offPrev offNext : Vec2)

/-- Modelled from the spec: resolve join `i`.  Open-path endpoints use the
plain perpendicular half-width normal (no miter).  Interior / closed joins
use the miter offset `bisector / (bisector · segment_normal)` and fall back
to a bevel when its magnitude exceeds the miter-length multiplier `limit`
(a zero denominator is the unbounded 180-degree case, also a bevel). -/
noncomputable def resolveJoin (path : List Vec2) (closed : Bool) (limit : ℝ)
    (i : ℕ) : Join :=
  let N := path.length
  let p := path.getD i 0
  if closed = false ∧ i = 0 then
    Join.miter p ((1 / 2 : ℝ) • segNormalAt path 0)
  else if closed = false ∧ i = N - 1 then
    Join.miter p ((1 / 2 : ℝ) • segNormalAt path (N - 2))
  else if miterDenom path i = 0 ∨ limit < vnorm (miterOffsetAt path i) then
    Join.bevel p ((1 / 2 : ℝ) • joinPrevNormal path i)
      ((1 / 2 : ℝ) • joinNextNormal path i)
  else
    Join.miter p (miterOffsetAt path i)

/-- Vertex block of a join: a miter point contributes the ribbon pair
`(p, off), (p, -off)`; a bevel join duplicates the join vertex, emitting
the two un-mitered segment-normal offsets `offPrev`, `offNext` plus the
shared inner vertex. -/
def joinVerts : Join → List (Vec2 × Vec2)
  | Join.miter p off => [(p, off), (p, -off)]
  | Join.bevel p offPrev offNext => [(p, offPrev), (p, -offPrev), (p, offNext)]

/-- Number of vertices a join contributes: 2 for a miter, 3 for a bevel. -/
def joinSize (j : Join) : ℕ := (joinVerts j).length

/-- Whether a join was resolved to the bevel fallback. -/
def isBevelJoin : Join → Bool
  | Join.miter _ _ => false
  | Join.bevel _ _ _ => true

/-- All resolved joins of a path, in point order. -/
noncomputable def meshJoins (path : List Vec2) (closed : Bool) (limit : ℝ) :
    List Join :=
  (List.range path.length).map (resolveJoin path closed limit)

/-- First vertex index of point `i`'s block in the concatenated buffer. -/
noncomputable def blockStart (path : List Vec2) (closed : Bool) (limit : ℝ)
    (i : ℕ) : ℕ :=
  (((meshJoins path closed limit).take i).map joinSize).sum

/-- Index of the point a segment `s` leads to (wrapping for closed). -/
def nextPt (N : ℕ) (closed : Bool) (s : ℕ) : ℕ :=
  if closed then (s + 1) % N else s + 1

/-- The two vertex indices of a block adjoining the outgoing segment. -/
def outPair (start : ℕ) : Join → ℕ × ℕ
  | Join.miter _ _ => (start, start + 1)
  | Join.bevel _ _ _ => (start + 2, start + 1)

/-- The two vertex indices of a block adjoining the incoming segment. -/
def inPair (start : ℕ) (_ : Join) : ℕ × ℕ := (start, start + 1)

/-- The two ribbon-strip triangles of one segment `s`, spanning the
outgoing vertex pair of point `s`'s block and the incoming vertex pair of
the next point's block. -/
noncomputable def segQuad (path : List Vec2) (closed : Bool) (limit : ℝ)
    (s : ℕ) : List Tri :=
  let js := meshJoins path closed limit
  let b := nextPt path.length closed s
  let pa := outPair (blockStart path closed limit s)
    (js.getD s (Join.miter 0 0))
  let pb := inPair (blockStart path closed limit b)
    (js.getD b (Join.miter 0 0))
  [(pa.1, pa.2, pb.1), (pa.2, pb.1, pb.2)]

/-- Modelled from the spec: the two ribbon-strip triangles of each segment
(`N - 1` segments open, `N` closed including the wraparound segment). -/
noncomputable def stripTriangles (path : List Vec2) (closed : Bool)
    (limit : ℝ) : List Tri :=
  (List.range (segCount path closed)).flatMap (segQuad path closed limit)

/-- Modelled from the spec: the extra triangle covering each bevel corner
(over the three vertices of the duplicated join block). -/
noncomputable def bevelTriangles (path : List Vec2) (closed : Bool)
    (limit : ℝ) : List Tri :=
  (List.range path.length).flatMap fun i =>
    if isBevelJoin (resolveJoin path closed limit i) then
      [(blockStart path closed limit i, blockStart path closed limit i + 2,
        blockStart path closed limit i + 1)]
    else []

/-- Number of joins resolved to the bevel fallback. -/
noncomputable def bevelCount (path : List Vec2) (closed : Bool) (limit : ℝ) :
    ℕ :=
  ((List.range path.length).filter
    (fun i => isBevelJoin (resolveJoin path closed limit i))).length

/-- An edge mesh: centers, parallel per-vertex offsets, and triangle index
triples (`triangles` indexes the `centers`/`offsets` buffers). -/
structure EdgeMesh where
  centers : List Vec2
  offsets : List Vec2
  triangles : List Tri

/-- Modelled from the spec: `generate_2D_edge_meshes(path, closed)` of
`napari.layers.shapes._shapes_utils` (body not in this source tree).
Builds the per-point vertex blocks from the resolved joins and the strip
plus bevel triangles; `limit` is the configurable maximum miter-length
multiplier (the spec recommends 2.0 and leaves it configurable). -/
noncomputable def generate_2D_edge_meshes (path : List Vec2) (closed : Bool)
    (limit : ℝ) : EdgeMesh :=
  let verts := (meshJoins path closed limit).flatMap joinVerts
  { centers := verts.map Prod.fst
    offsets := verts.map Prod.snd
    triangles := stripTriangles path closed limit
      ++ bevelTriangles path closed limit }

/-- The reversal path `[[0,0],[1,0],[0,0]]`: its interior join turns by
180 degrees, the unbounded-miter case. -/
def revPath : List Vec2 := [(0, 0), (1, 0), (0, 0)]

/-- A needle-sharp cusp on a 3-4-5 triangle: the interior join's miter
offset has magnitude `sqrt 10 > 2`. -/
def cuspPath : List Vec2 := [(0, 0), (4, 0), (0, 3)]

/-- A sample one-record (origin, direction) list used in witnesses. -/
def recSample : List (Vec2 × Vec2) := [((1, 2), (3, 4))]

/-- A sample triangle index list used in witnesses. -/
def triSample : List Tri := [(0, 1, 2)]

/-- A sample vertex buffer used in witnesses. -/
def bufSample : List Vec2 := [(0, 0), (1, 0), (0, 1)]

/- ### Basic norm lemmas -/

theorem vnorm_nonneg (v : Vec2) : 0 ≤ vnorm v := Real.sqrt_nonneg _

theorem vnorm_eq_zero_iff (v : Vec2) : vnorm v = 0 ↔ v = 0 := by
  unfold vnorm
  rw [Real.sqrt_eq_zero (by positivity)]
  constructor
  · intro h
    have h1 : v.1 = 0 ∧ v.2 = 0 := by
      constructor <;> nlinarith [sq_nonneg v.1, sq_nonneg v.2]
    exact Prod.ext h1.1 h1.2
  · intro h; rw [h]; norm_num

theorem vnorm_smul (c : ℝ) (v : Vec2) : vnorm (c • v) = |c| * vnorm v := by
  unfold vnorm
  have h1 : (c • v).1 = c * v.1 := rfl
  have h2 : (c • v).2 = c * v.2 := rfl
  rw [h1, h2]
  have : (c * v.1) ^ 2 + (c * v.2) ^ 2 = c ^ 2 * (v.1 ^ 2 + v.2 ^ 2) := by ring
  rw [this, Real.sqrt_mul (sq_nonneg c), Real.sqrt_sq_eq_abs]

theorem vnorm_neg (v : Vec2) : vnorm (-v) = vnorm v := by
  unfold vnorm
  have h1 : (-v).1 = -v.1 := rfl
  have h2 : (-v).2 = -v.2 := rfl
  rw [h1, h2]; ring_nf

theorem vnorm_unit (v : Vec2) (hv : v ≠ 0) : vnorm ((vnorm v)⁻¹ • v) = 1 := by
  rw [vnorm_smul]
  have hpos : 0 < vnorm v := by
    rcases lt_or_eq_of_le (vnorm_nonneg v) with h | h
    · exact h
    · exact absurd ((vnorm_eq_zero_iff v).mp h.symm) hv
  rw [abs_inv, abs_of_pos hpos, inv_mul_cancel₀ (ne_of_gt hpos)]

theorem vnorm_rot90 (v : Vec2) : vnorm (rot90 v) = vnorm v := by
  unfold vnorm rot90
  ring_nf

theorem vnorm_unitDir (a b : Vec2) (h : a ≠ b) : vnorm (unitDir a b) = 1 :=
  vnorm_unit _ (sub_ne_zero.mpr (Ne.symm h))

/- ### List indexing helpers -/

theorem getD_map_range {α : Type _} (n : ℕ) (f : ℕ → α) (d : α) (i : ℕ)
    (hi : i < n) : ((List.range n).map f).getD i d = f i := by
  rw [List.getD_eq_getElem?_getD, List.getElem?_map, List.getElem?_range hi]
  rfl

theorem map_getD_range {α : Type _} (l : List α) (d : α) :
    (List.range l.length).map (fun i => l.getD i d) = l := by
  apply List.ext_getElem
  · simp
  · intro i h1 h2
    simp only [List.getElem_map, List.getElem_range]
    exact l.getD_eq_getElem d h2

/- ### Structure of `generate_order_vectors` -/

theorem orderVec_length (path : List Vec2) (closed : Bool) :
    (generate_order_vectors path closed).length = path.length := by
  unfold generate_order_vectors
  simp

theorem orderVec_fst (path : List Vec2) (closed : Bool) :
    (generate_order_vectors path closed).map Prod.fst = path := by
  unfold generate_order_vectors
  rw [List.map_map]
  exact map_getD_range path 0

theorem orderVec_getD (path : List Vec2) (closed : Bool) (i : ℕ)
    (hi : i < path.length) :
    (generate_order_vectors path closed).getD i (0, none) =
      (path.getD i 0,
        if i = path.length - 1 then
          (if closed then
            normalizeV (path.getD 0 0 - path.getD (path.length - 1) 0)
          else
            (((diffList path).map normalizeV).getD (path.length - 2) none).map
              fun d => -d)
        else ((diffList path).map normalizeV).getD i none) := by
  unfold generate_order_vectors
  exact getD_map_range _ _ _ i hi

theorem normals_getD (path : List Vec2) (i : ℕ) (hi : i + 1 < path.length) :
    ((diffList path).map normalizeV).getD i none =
      normalizeV (path.getD (i + 1) 0 - path.getD i 0) := by
  unfold diffList
  rw [List.map_map]
  exact getD_map_range _ _ _ i (by omega)

theorem orderVec_dir_mid (path : List Vec2) (closed : Bool) (i : ℕ)
    (hi : i + 1 < path.length)
    (hne : path.getD i 0 ≠ path.getD (i + 1) 0) :
    ((generate_order_vectors path closed).getD i (0, none)).2 =
      some (unitDir (path.getD i 0) (path.getD (i + 1) 0)) := by
  rw [orderVec_getD path closed i (by omega)]
  have hlt : ¬ i = path.length - 1 := by omega
  rw [if_neg hlt]
  rw [normals_getD path i hi]
  unfold normalizeV unitDir
  rw [if_neg (sub_ne_zero.mpr (Ne.symm hne))]

theorem orderVec_dir_last_closed (path : List Vec2) (hN : 1 ≤ path.length)
    (hne : path.getD (path.length - 1) 0 ≠ path.getD 0 0) :
    ((generate_order_vectors path true).getD (path.length - 1) (0, none)).2 =
      some (unitDir (path.getD (path.length - 1) 0) (path.getD 0 0)) := by
  rw [orderVec_getD path true (path.length - 1) (by omega)]
  rw [if_pos rfl, if_pos rfl]
  unfold normalizeV unitDir
  rw [if_neg (sub_ne_zero.mpr (Ne.symm hne))]

theorem orderVec_dir_last_open (path : List Vec2) (hN : 2 ≤ path.length) :
    ((generate_order_vectors path false).getD (path.length - 1) (0, none)).2 =
      (((generate_order_vectors path false).getD (path.length - 2)
        (0, none)).2).map fun d => -d := by
  rw [orderVec_getD path false (path.length - 1) (by omega),
    orderVec_getD path false (path.length - 2) (by omega)]
  rw [if_pos rfl]
  have h2 : ¬ path.length - 2 = path.length - 1 := by omega
  rw [if_neg h2]
  rfl

/-- The directions of `generate_order_vectors` on a path with no two
consecutive coincident points (wraparound pair included when closed) are
all finite unit vectors. -/
theorem orderVec_dir_unit (path : List Vec2) (closed : Bool)
    (hN : 2 ≤ path.length)
    (hadj : ∀ i, i + 1 < path.length → path.getD i 0 ≠ path.getD (i + 1) 0)
    (hwrap : closed = true → path.getD (path.length - 1) 0 ≠ path.getD 0 0) :
    ∀ i, i < path.length →
      ∃ d, ((generate_order_vectors path closed).getD i (0, none)).2 = some d ∧
        vnorm d = 1 := by
  intro i hi
  by_cases hlast : i = path.length - 1
  · subst hlast
    cases closed with
    | true =>
      refine ⟨_, orderVec_dir_last_closed path (by omega) (hwrap rfl), ?_⟩
      exact vnorm_unitDir _ _ (hwrap rfl)
    | false =>
      have hmid := orderVec_dir_mid path false (path.length - 2)
        (by omega) (hadj _ (by omega))
      have hu : path.getD (path.length - 2) 0 ≠
          path.getD (path.length - 2 + 1) 0 := hadj _ (by omega)
      refine ⟨-(unitDir (path.getD (path.length - 2) 0)
        (path.getD (path.length - 2 + 1) 0)), ?_, ?_⟩
      · rw [orderVec_dir_last_open path hN, hmid]
        rfl
      · rw [vnorm_neg]
        exact vnorm_unitDir _ _ hu
  · have hi1 : i + 1 < path.length := by omega
    refine ⟨_, orderVec_dir_mid path closed i hi1 (hadj i hi1), ?_⟩
    exact vnorm_unitDir _ _ (hadj i hi1)

/- ### Claims C1-C4 -/

/-- Claim C1: for every path of `N ≥ 2` points with no two consecutive
points coincident, `generate_order_vectors(path, closed)` returns exactly
`N` (origin, direction) records whose origins are the path points in
order; for every `i < N - 1` the direction of record `i` is the unit
vector from point `i` to point `i + 1`; and the last record's direction is
the unit vector from the last point back to the first point when closed,
and the negation of record `N - 2`'s direction when open. -/
theorem claim_order_vectors_records (path : List Vec2) (closed : Bool)
    (hN : 2 ≤ path.length)
    (hadj : ∀ i, i + 1 < path.length → path.getD i 0 ≠ path.getD (i + 1) 0)
    (hwrap : closed = true → path.getD (path.length - 1) 0 ≠ path.getD 0 0) :
    (generate_order_vectors path closed).length = path.length ∧
    (generate_order_vectors path closed).map Prod.fst = path ∧
    (∀ i, i + 1 < path.length →
      ((generate_order_vectors path closed).getD i (0, none)).2 =
        some (unitDir (path.getD i 0) (path.getD (i + 1) 0))) ∧
    (closed = true →
      ((generate_order_vectors path closed).getD (path.length - 1)
        (0, none)).2 =
        some (unitDir (path.getD (path.length - 1) 0) (path.getD 0 0))) ∧
    (closed = false →
      ((generate_order_vectors path closed).getD (path.length - 1)
        (0, none)).2 =
        (((generate_order_vectors path closed).getD (path.length - 2)
          (0, none)).2).map fun d => -d) := by
  refine ⟨orderVec_length path closed, orderVec_fst path closed, ?_, ?_, ?_⟩
  · intro i hi
    exact orderVec_dir_mid path closed i hi (hadj i hi)
  · intro hc
    subst hc
    exact orderVec_dir_last_closed path (by omega) (hwrap rfl)
  · intro hc
    subst hc
    exact orderVec_dir_last_open path hN

/-- Witness for C1 at the open path `[[0,0],[1,0]]`. -/
theorem claim_order_vectors_records_witness :
    (generate_order_vectors [((0 : ℝ), (0 : ℝ)), (1, 0)] false).length = 2 := by
  have h := claim_order_vectors_records [((0 : ℝ), (0 : ℝ)), (1, 0)] false
    (by norm_num)
    (by
      intro i hi
      have h0 : i = 0 := by simp at hi; omega
      subst h0
      simp [List.getD, Prod.ext_iff])
    (by intro h; exact absurd h (by norm_num))
  simpa using h.1

/-- Claim C4: for every path (of at least two points) with no two
consecutive coincident points (wraparound pair included when closed),
every direction vector produced by `generate_order_vectors` is finite and
has Euclidean norm exactly 1, including the extrapolated last record for
open paths and the wraparound record for closed paths. -/
theorem claim_order_vectors_unit_norm (path : List Vec2) (closed : Bool)
    (hN : 2 ≤ path.length)
    (hadj : ∀ i, i + 1 < path.length → path.getD i 0 ≠ path.getD (i + 1) 0)
    (hwrap : closed = true → path.getD (path.length - 1) 0 ≠ path.getD 0 0) :
    ∀ i, i < path.length →
      (((generate_order_vectors path closed).getD i (0, none)).2).map vnorm =
        some 1 := by
  intro i hi
  obtain ⟨d, hd, hn⟩ := orderVec_dir_unit path closed hN hadj hwrap i hi
  rw [hd]
  simp [hn]

/-- Witness for C4 at the open path `[[0,0],[0,1]]`, record 1 (the
extrapolated end record). -/
theorem claim_order_vectors_unit_norm_witness :
    (((generate_order_vectors [((0 : ℝ), (0 : ℝ)), (0, 1)] false).getD 1
      (0, none)).2).map vnorm = some 1 := by
  have h := claim_order_vectors_unit_norm [((0 : ℝ), (0 : ℝ)), (0, 1)] false
    (by norm_num)
    (by
      intro i hi
      have h0 : i = 0 := by simp at hi; omega
      subst h0
      simp [List.getD, Prod.ext_iff])
    (by intro h; exact absurd h (by norm_num))
  simpa using h 1 (by norm_num)

/-- Claim C2: for the closed zig-zag path
`[[1,1],[10,0],[1,-1],[0,-10],[-1,-1],[-10,0],[-1,1],[0,10]]`,
`generate_order_vectors` completes with exactly 8 records, the origins are
the path points themselves (all finite), and every direction is finite
(no numpy NaN/Inf, i.e. no `none` marker). -/
theorem claim_sharp_zigzag_finite :
    (generate_order_vectors sharpPath true).length = 8 ∧
    (generate_order_vectors sharpPath true).map Prod.fst = sharpPath ∧
    ∀ i, i < 8 →
      (((generate_order_vectors sharpPath true).getD i (0, none)).2).isSome =
        true := by
  have key := orderVec_dir_unit sharpPath true (by norm_num [sharpPath])
    (by
      intro i hi
      have h8 : i + 1 < 8 := by simpa [sharpPath] using hi
      have h6 : i ≤ 6 := by omega
      interval_cases i <;> norm_num [sharpPath, List.getD, Prod.ext_iff])
    (by
      intro _
      norm_num [sharpPath, List.getD, Prod.ext_iff])
  refine ⟨by simp [orderVec_length, sharpPath], orderVec_fst sharpPath true, ?_⟩
  intro i hi
  obtain ⟨d, hd, _⟩ := key i (by simpa [sharpPath] using hi)
  rw [hd]
  rfl

/-- Claim C3 counterexample: on the two-point path `[[0,0],[0,0]]` (two
consecutive coincident points) `generate_order_vectors` does not raise any
error: it returns a full 2-record result whose directions carry the
non-finite marker (numpy's silent NaN from `0/0`), refuting "raises
`ZeroLengthSegmentError` rather than returning a result". -/
theorem claim_zero_segment_no_error :
    generate_order_vectors [((0 : ℝ), (0 : ℝ)), ((0 : ℝ), (0 : ℝ))] false =
      [((0, 0), none), ((0, 0), none)] := by
  unfold generate_order_vectors diffList
  norm_num [List.range_succ, normalizeV, List.getD]

/-- Claim C3 amended: `generate_order_vectors` performs no zero-length
check and raises nothing; on a path containing two consecutive coincident
points it returns a full `N`-record result in which the direction at each
zero-length segment index is non-finite (numpy NaN, modelled `none`). -/
theorem claim_zero_segment_nan (path : List Vec2) (closed : Bool) (i : ℕ)
    (hi : i + 1 < path.length)
    (heq : path.getD (i + 1) 0 = path.getD i 0) :
    (generate_order_vectors path closed).length = path.length ∧
    ((generate_order_vectors path closed).getD i (0, none)).2 = none := by
  refine ⟨orderVec_length path closed, ?_⟩
  rw [orderVec_getD path closed i (by omega), if_neg (by omega : ¬ i = path.length - 1),
    normals_getD path i hi]
  unfold normalizeV
  rw [if_pos (by rw [heq]; exact sub_self _)]

/-- Witness for the amended C3 at the closed path `[[0,0],[0,0]]`. -/
theorem claim_zero_segment_nan_witness :
    (generate_order_vectors [((0 : ℝ), (0 : ℝ)), ((0 : ℝ), (0 : ℝ))]
      true).length = 2 ∧
    ((generate_order_vectors [((0 : ℝ), (0 : ℝ)), ((0 : ℝ), (0 : ℝ))]
      true).getD 0 (0, none)).2 = none := by
  have h := claim_zero_segment_nan [((0 : ℝ), (0 : ℝ)), ((0 : ℝ), (0 : ℝ))]
    true 0 (by norm_num) rfl
  simpa using h

/- ### Claims C7-C10 -/

theorem getD_map_lt {α β : Type _} (l : List α) (f : α → β) (d : β) (da : α)
    (i : ℕ) (hi : i < l.length) : (l.map f).getD i d = f (l.getD i da) := by
  rw [List.getD_eq_getElem?_getD, List.getElem?_map,
    List.getElem?_eq_getElem hi]
  rw [List.getD_eq_getElem?_getD, List.getElem?_eq_getElem hi]
  rfl

/-- Claim C9: for every input list of N (origin, direction) records,
`generate_orthogonal_vectors` returns N records where record `i` has
origin `origin_i + direction_i / 2` and direction the 90-degree rotation
`(x, y) ↦ (-y, x)` of `direction_i / 2`; consequently every output
direction is orthogonal to the corresponding input direction and has half
its Euclidean norm. -/
theorem claim_orthogonal_vectors (nv : List (Vec2 × Vec2)) :
    (generate_orthogonal_vectors nv).length = nv.length ∧
    ∀ i, i < nv.length →
      (generate_orthogonal_vectors nv).getD i 0 =
        ((nv.getD i 0).1 + (1 / 2 : ℝ) • (nv.getD i 0).2,
          rot90 ((1 / 2 : ℝ) • (nv.getD i 0).2)) ∧
      dotv ((generate_orthogonal_vectors nv).getD i 0).2 (nv.getD i 0).2 = 0 ∧
      vnorm ((generate_orthogonal_vectors nv).getD i 0).2 =
        (1 / 2) * vnorm (nv.getD i 0).2 := by
  constructor
  · unfold generate_orthogonal_vectors
    simp
  · intro i hi
    have hget : (generate_orthogonal_vectors nv).getD i 0 =
        ((nv.getD i 0).1 + (1 / 2 : ℝ) • (nv.getD i 0).2,
          rot90 ((1 / 2 : ℝ) • (nv.getD i 0).2)) := by
      unfold generate_orthogonal_vectors
      exact getD_map_lt nv _ 0 0 i hi
    refine ⟨hget, ?_, ?_⟩
    · rw [hget]
      show dotv (rot90 ((1 / 2 : ℝ) • (nv.getD i 0).2)) (nv.getD i 0).2 = 0
      unfold dotv rot90
      have h1 : ((1 / 2 : ℝ) • (nv.getD i 0).2).1 =
          (1 / 2 : ℝ) * (nv.getD i 0).2.1 := rfl
      have h2 : ((1 / 2 : ℝ) • (nv.getD i 0).2).2 =
          (1 / 2 : ℝ) * (nv.getD i 0).2.2 := rfl
      simp only [h1, h2]
      ring
    · rw [hget]
      show vnorm (rot90 ((1 / 2 : ℝ) • (nv.getD i 0).2)) =
        1 / 2 * vnorm (nv.getD i 0).2
      rw [vnorm_rot90, vnorm_smul]
      norm_num

/-- Witness for C9 at `recSample`, record 0: orthogonality. -/
theorem claim_orthogonal_vectors_witness :
    dotv ((generate_orthogonal_vectors recSample).getD 0 0).2
      (recSample.getD 0 0).2 = 0 :=
  ((claim_orthogonal_vectors recSample).2 0 (by norm_num [recSample])).2.1

/-- Claim C10: for every input list of N (origin, direction) records,
`generate_miter_helper_vectors` returns exactly 2N records: for `i < N`,
record `i` is `(origin_i, direction_i / 2)` and record `N + i` is
`(origin_i + direction_i / 2, -direction_((i-1) mod N) / 2)` (the modular
previous index written `(i + (N - 1)) % N` over ℕ). -/
theorem claim_miter_helper_vectors (nv : List (Vec2 × Vec2)) :
    (generate_miter_helper_vectors nv).length = 2 * nv.length ∧
    ∀ i, i < nv.length →
      (generate_miter_helper_vectors nv).getD i 0 =
        ((nv.getD i 0).1, (1 / 2 : ℝ) • (nv.getD i 0).2) ∧
      (generate_miter_helper_vectors nv).getD (nv.length + i) 0 =
        ((nv.getD i 0).1 + (1 / 2 : ℝ) • (nv.getD i 0).2,
          -((1 / 2 : ℝ) • (nv.getD ((i + (nv.length - 1)) % nv.length) 0).2)) := by
  constructor
  · unfold generate_miter_helper_vectors
    simp
    ring
  · intro i hi
    constructor
    · unfold generate_miter_helper_vectors
      rw [List.getD_append _ _ _ _ (by simpa using hi)]
      exact getD_map_lt nv _ 0 0 i hi
    · unfold generate_miter_helper_vectors
      rw [List.getD_append_right _ _ _ _ (by simp)]
      simp only [List.length_map]
      have hsub : nv.length + i - nv.length = i := by omega
      rw [hsub]
      exact getD_map_range nv.length _ 0 i hi

/-- Witness for C10 at `recSample`, record 0 of the first half. -/
theorem claim_miter_helper_vectors_witness :
    (generate_miter_helper_vectors recSample).getD 0 0 =
      ((recSample.getD 0 0).1, (1 / 2 : ℝ) • (recSample.getD 0 0).2) :=
  ((claim_miter_helper_vectors recSample).2 0 (by norm_num [recSample])).1

theorem triangleBorders_length (vert : ℕ → Vec2) (tris : List Tri) :
    (triangleBorders vert tris).length = 3 * tris.length := by
  induction tris with
  | nil => rfl
  | cons t ts ih =>
    show (triangleBorders vert (t :: ts)).length = 3 * (ts.length + 1)
    have hb : triangleBorders vert (t :: ts) =
        (vert t.1, vert t.2.1 - vert t.1) ::
        (vert t.2.1, vert t.2.2 - vert t.2.1) ::
        (vert t.2.2, vert t.1 - vert t.2.2) :: triangleBorders vert ts := rfl
    rw [hb]
    simp [ih]
    ring

theorem triangleBorders_loop (vert : ℕ → Vec2) (tris : List Tri) :
    ∀ i, i < tris.length →
      ((triangleBorders vert tris).getD (3 * i) 0).2 +
        ((triangleBorders vert tris).getD (3 * i + 1) 0).2 +
        ((triangleBorders vert tris).getD (3 * i + 2) 0).2 = 0 := by
  induction tris with
  | nil => intro i hi; simp at hi
  | cons t ts ih =>
    intro i hi
    have hb : triangleBorders vert (t :: ts) =
        (vert t.1, vert t.2.1 - vert t.1) ::
        (vert t.2.1, vert t.2.2 - vert t.2.1) ::
        (vert t.2.2, vert t.1 - vert t.2.2) :: triangleBorders vert ts := rfl
    rw [hb]
    cases i with
    | zero =>
      simp only [Nat.mul_zero, Nat.zero_add, List.getD_cons_zero,
        List.getD_cons_succ]
      abel
    | succ j =>
      have hj : j < ts.length := by simp at hi; omega
      have e1 : 3 * (j + 1) = 3 * j + 1 + 1 + 1 := by ring
      rw [e1]
      have e3 : 3 * j + 1 + 1 + 1 + 2 = 3 * j + 2 + 1 + 1 + 1 := by ring
      rw [e3]
      simp only [List.getD_cons_succ]
      exact ih j hj

/-- Claim C8: for every vertex/offset buffer and triangle index list of
length T, `generate_edge_triangle_borders` and
`generate_face_triangle_borders` each return exactly `3 * T` (origin,
direction) records, and for each triangle the three emitted direction
vectors sum to the zero vector (the borders form a closed loop). -/
theorem claim_triangle_borders (centers offsets vertices : List Vec2)
    (tris : List Tri) :
    (generate_edge_triangle_borders centers offsets tris).length =
      3 * tris.length ∧
    (generate_face_triangle_borders vertices tris).length = 3 * tris.length ∧
    (∀ i, i < tris.length →
      ((generate_edge_triangle_borders centers offsets tris).getD
          (3 * i) 0).2 +
        ((generate_edge_triangle_borders centers offsets tris).getD
          (3 * i + 1) 0).2 +
        ((generate_edge_triangle_borders centers offsets tris).getD
          (3 * i + 2) 0).2 = 0) ∧
    (∀ i, i < tris.length →
      ((generate_face_triangle_borders vertices tris).getD (3 * i) 0).2 +
        ((generate_face_triangle_borders vertices tris).getD
          (3 * i + 1) 0).2 +
        ((generate_face_triangle_borders vertices tris).getD
          (3 * i + 2) 0).2 = 0) :=
  ⟨triangleBorders_length _ tris, triangleBorders_length _ tris,
    triangleBorders_loop _ tris, triangleBorders_loop _ tris⟩

/-- Witness for C8 at `bufSample` / `triSample`, triangle 0 of the edge
variant. -/
theorem claim_triangle_borders_witness :
    ((generate_edge_triangle_borders bufSample bufSample triSample).getD
        0 0).2 +
      ((generate_edge_triangle_borders bufSample bufSample triSample).getD
        1 0).2 +
      ((generate_edge_triangle_borders bufSample bufSample triSample).getD
        2 0).2 = 0 := by
  have h := (claim_triangle_borders bufSample bufSample bufSample
    triSample).2.2.1 0 (by norm_num [triSample])
  simpa using h

/-- Claim C7: geometry generation is deterministic and side-effect-free:
the generator functions are pure, so equal input arrays and flags give
identical outputs (calling generation twice on an unchanged path yields
identical output).  In this embedding every generator is a mathematical
function, so equal arguments give equal results. -/
theorem claim_generators_deterministic (p q : List Vec2) (c b : Bool)
    (nv nw : List (Vec2 × Vec2)) (cen cen2 off off2 ver ver2 : List Vec2)
    (tr tr2 : List Tri) (hpq : p = q) (hcb : c = b) (hnv : nv = nw)
    (hcen : cen = cen2) (hoff : off = off2) (hver : ver = ver2)
    (htr : tr = tr2) :
    generate_order_vectors p c = generate_order_vectors q b ∧
    generate_miter_helper_vectors nv = generate_miter_helper_vectors nw ∧
    generate_orthogonal_vectors nv = generate_orthogonal_vectors nw ∧
    generate_edge_triangle_borders cen off tr =
      generate_edge_triangle_borders cen2 off2 tr2 ∧
    generate_face_triangle_borders ver tr =
      generate_face_triangle_borders ver2 tr2 := by
  subst hpq hcb hnv hcen hoff hver htr
  exact ⟨rfl, rfl, rfl, rfl, rfl⟩

/-- Witness for C7 at concrete inputs. -/
theorem claim_generators_deterministic_witness :
    generate_order_vectors sharpPath true =
      generate_order_vectors sharpPath true :=
  (claim_generators_deterministic sharpPath sharpPath true true recSample
    recSample bufSample bufSample bufSample bufSample bufSample bufSample
    triSample triSample rfl rfl rfl rfl rfl rfl rfl).1

/- ### Edge-mesh triangle counting (spec-modelled generator) -/

theorem length_flatMap_const {α β : Type _} (l : List α) (f : α → List β)
    (k : ℕ) (hf : ∀ a, (f a).length = k) :
    (l.flatMap f).length = k * l.length := by
  induction l with
  | nil => simp
  | cons a t ih =>
    rw [List.flatMap_cons, List.length_append, ih, hf a, List.length_cons]
    ring

theorem length_flatMap_filter {α β : Type _} (l : List α) (g : α → List β)
    (p : α → Bool) (hg : ∀ a, (g a).length = if p a then 1 else 0) :
    (l.flatMap g).length = (l.filter p).length := by
  induction l with
  | nil => rfl
  | cons a t ih =>
    rw [List.flatMap_cons, List.length_append, ih, List.filter_cons]
    by_cases h : p a
    · simp [h, hg a]
      omega
    · simp [h, hg a]

theorem stripTriangles_length (path : List Vec2) (closed : Bool) (limit : ℝ) :
    (stripTriangles path closed limit).length = 2 * segCount path closed := by
  unfold stripTriangles
  rw [length_flatMap_const (List.range (segCount path closed))
    (segQuad path closed limit) 2 (fun s => rfl)]
  simp

theorem bevelTriangles_length (path : List Vec2) (closed : Bool) (limit : ℝ) :
    (bevelTriangles path closed limit).length =
      bevelCount path closed limit := by
  unfold bevelTriangles bevelCount
  exact length_flatMap_filter _ _
    (fun i => isBevelJoin (resolveJoin path closed limit i))
    (fun i => by by_cases h : isBevelJoin (resolveJoin path closed limit i) <;>
      simp [h])

/-- Triangle count of the spec-modelled edge mesh: two strip triangles per
segment plus one bevel triangle per bevel join. -/
theorem mesh_triangles_length (path : List Vec2) (closed : Bool) (limit : ℝ) :
    (generate_2D_edge_meshes path closed limit).triangles.length =
      2 * segCount path closed + bevelCount path closed limit := by
  show (stripTriangles path closed limit ++
    bevelTriangles path closed limit).length = _
  rw [List.length_append, stripTriangles_length, bevelTriangles_length]

/- ### Concrete join computations -/

theorem vnorm_mk (x y : ℝ) : vnorm (x, y) = Real.sqrt (x ^ 2 + y ^ 2) := rfl

theorem smul_mk_real (c x y : ℝ) : c • ((x, y) : Vec2) = (c * x, c * y) := rfl

theorem sub_mk_real (a b c d : ℝ) :
    ((a, b) : Vec2) - (c, d) = (a - c, b - d) := rfl

theorem add_mk_real (a b c d : ℝ) :
    ((a, b) : Vec2) + (c, d) = (a + c, b + d) := rfl

theorem rev_tangent0 : segTangent revPath 0 = (1, 0) := by
  show (vnorm (((1 : ℝ), (0 : ℝ)) - (0, 0)))⁻¹ •
    (((1 : ℝ), (0 : ℝ)) - (0, 0)) = ((1 : ℝ), (0 : ℝ))
  rw [sub_mk_real]
  norm_num [vnorm_mk, smul_mk_real, Real.sqrt_one]

theorem rev_tangent1 : segTangent revPath 1 = (-1, 0) := by
  show (vnorm (((0 : ℝ), (0 : ℝ)) - (1, 0)))⁻¹ •
    (((0 : ℝ), (0 : ℝ)) - (1, 0)) = ((-1 : ℝ), (0 : ℝ))
  rw [sub_mk_real]
  norm_num [vnorm_mk, smul_mk_real, Real.sqrt_one]

theorem rev_denom : miterDenom revPath 1 = 0 := by
  unfold miterDenom bisectorAt joinPrevNormal joinNextNormal
  have hprev : prevSegIdx revPath.length 1 = 0 := rfl
  rw [hprev]
  unfold segNormalAt
  rw [rev_tangent0, rev_tangent1]
  simp only [rot90]
  rw [add_mk_real, smul_mk_real]
  norm_num [dotv]

theorem rev_join0 : isBevelJoin (resolveJoin revPath false 2 0) = false := by
  unfold resolveJoin
  rw [if_pos (show (false = false ∧ 0 = 0) from ⟨rfl, rfl⟩)]
  rfl

theorem rev_join2 : isBevelJoin (resolveJoin revPath false 2 2) = false := by
  unfold resolveJoin
  rw [if_neg (show ¬ (false = false ∧ 2 = 0) by simp),
    if_pos (show (false = false ∧ 2 = revPath.length - 1) from ⟨rfl, rfl⟩)]
  rfl

theorem rev_join1 : isBevelJoin (resolveJoin revPath false 2 1) = true := by
  unfold resolveJoin
  rw [if_neg (show ¬ (false = false ∧ 1 = 0) by simp),
    if_neg (show ¬ (false = false ∧ 1 = revPath.length - 1) by simp [revPath]),
    if_pos (Or.inl rev_denom)]
  rfl

theorem rev_bevelCount : bevelCount revPath false 2 = 1 := by
  unfold bevelCount
  have hr : List.range revPath.length = [0, 1, 2] := rfl
  rw [hr]
  rw [List.filter_cons, List.filter_cons, List.filter_cons]
  simp only [rev_join0, rev_join1, rev_join2]
  rfl

theorem cusp_tangent0 : segTangent cuspPath 0 = (1, 0) := by
  show (vnorm (((4 : ℝ), (0 : ℝ)) - (0, 0)))⁻¹ •
    (((4 : ℝ), (0 : ℝ)) - (0, 0)) = ((1 : ℝ), (0 : ℝ))
  rw [sub_mk_real]
  have h4 : vnorm ((4 - 0 : ℝ), (0 - 0 : ℝ)) = 4 := by
    rw [vnorm_mk, show ((4 - 0 : ℝ) ^ 2 + (0 - 0) ^ 2) = 4 ^ 2 by norm_num]
    exact Real.sqrt_sq (by norm_num)
  rw [h4, smul_mk_real]
  norm_num

theorem cusp_tangent1 : segTangent cuspPath 1 = (-(4 / 5), 3 / 5) := by
  show (vnorm (((0 : ℝ), (3 : ℝ)) - (4, 0)))⁻¹ •
    (((0 : ℝ), (3 : ℝ)) - (4, 0)) = ((-(4 / 5) : ℝ), (3 / 5 : ℝ))
  rw [sub_mk_real]
  have h5 : vnorm ((0 - 4 : ℝ), (3 - 0 : ℝ)) = 5 := by
    rw [vnorm_mk, show ((0 - 4 : ℝ) ^ 2 + (3 - 0) ^ 2) = 5 ^ 2 by norm_num]
    exact Real.sqrt_sq (by norm_num)
  rw [h5, smul_mk_real]
  norm_num

theorem cusp_denom : miterDenom cuspPath 1 = 1 / 10 := by
  unfold miterDenom bisectorAt joinPrevNormal joinNextNormal
  have hprev : prevSegIdx cuspPath.length 1 = 0 := rfl
  rw [hprev]
  unfold segNormalAt
  rw [cusp_tangent0, cusp_tangent1]
  simp only [rot90]
  rw [add_mk_real, smul_mk_real]
  norm_num [dotv]

theorem cusp_bisector : bisectorAt cuspPath 1 = (-(3 / 10), 1 / 10) := by
  unfold bisectorAt joinPrevNormal joinNextNormal
  have hprev : prevSegIdx cuspPath.length 1 = 0 := rfl
  rw [hprev]
  unfold segNormalAt
  rw [cusp_tangent0, cusp_tangent1]
  simp only [rot90]
  rw [add_mk_real, smul_mk_real]
  norm_num

theorem cusp_offset : miterOffsetAt cuspPath 1 = (-3, 1) := by
  unfold miterOffsetAt
  rw [cusp_denom, cusp_bisector, smul_mk_real]
  norm_num

theorem cusp_offset_large : (2 : ℝ) < vnorm (miterOffsetAt cuspPath 1) := by
  rw [cusp_offset, vnorm_mk, show ((-3 : ℝ) ^ 2 + 1 ^ 2) = 10 by norm_num]
  have h2 : (2 : ℝ) = Real.sqrt 4 := by
    rw [show (4 : ℝ) = 2 ^ 2 by norm_num]
    exact (Real.sqrt_sq (by norm_num)).symm
  rw [h2]
  exact Real.sqrt_lt_sqrt (by norm_num) (by norm_num)

/- ### Claims C5-C6 (spec-modelled) -/

/-- Claim C5 counterexample: on the open reversal path `[[0,0],[1,0],[0,0]]`
(limit 2) the interior join turns by 180 degrees, forcing the bevel
fallback; the mesh then has `2 * segment_count + 1 = 5` triangles, not
`2 * segment_count = 4`. -/
theorem claim_edge_mesh_count_cex :
    (generate_2D_edge_meshes revPath false 2).triangles.length ≠
      2 * segCount revPath false := by
  rw [mesh_triangles_length, rev_bevelCount]
  omega

/-- Claim C5 (amended): for every path, the edge mesh of
`generate_2D_edge_meshes(path, closed)` contains exactly
`2 * segment_count + bevel_count` triangles, where `segment_count = N` if
closed else `N - 1` and `bevel_count` is the number of joins resolved to
the bevel fallback (so exactly `2 * segment_count` when no join exceeds
the miter limit). -/
theorem claim_edge_mesh_triangle_count (path : List Vec2) (closed : Bool)
    (limit : ℝ) :
    (generate_2D_edge_meshes path closed limit).triangles.length =
      2 * segCount path closed + bevelCount path closed limit :=
  mesh_triangles_length path closed limit

/-- Claim C6: at an interior (or closed-path) join the half-width offset
is `bisector / (bisector · segment_normal)` (`miterOffsetAt`, emitted by
`resolveJoin` whenever it is within the miter limit), and whenever its
magnitude exceeds the maximum miter-length multiplier the join falls back
to a bevel: the two un-mitered segment-normal half offsets are emitted as
a pair, the join vertex is duplicated (a 3-vertex block), and the edge
mesh gains one extra triangle per bevel join. -/
theorem claim_miter_bevel_policy (path : List Vec2) (closed : Bool)
    (limit : ℝ) (i : ℕ) (hi : i < path.length)
    (hfirst : ¬ (closed = false ∧ i = 0))
    (hlast : ¬ (closed = false ∧ i = path.length - 1)) :
    (¬ (miterDenom path i = 0 ∨ limit < vnorm (miterOffsetAt path i)) →
      resolveJoin path closed limit i =
        Join.miter (path.getD i 0) (miterOffsetAt path i)) ∧
    (limit < vnorm (miterOffsetAt path i) →
      resolveJoin path closed limit i =
        Join.bevel (path.getD i 0) ((1 / 2 : ℝ) • joinPrevNormal path i)
          ((1 / 2 : ℝ) • joinNextNormal path i) ∧
      joinSize (resolveJoin path closed limit i) = 3 ∧
      (generate_2D_edge_meshes path closed limit).triangles.length =
        2 * segCount path closed + bevelCount path closed limit ∧
      1 ≤ bevelCount path closed limit) := by
  constructor
  · intro hno
    unfold resolveJoin
    rw [if_neg hfirst, if_neg hlast, if_neg hno]
  · intro hlt
    have hbev : resolveJoin path closed limit i =
        Join.bevel (path.getD i 0) ((1 / 2 : ℝ) • joinPrevNormal path i)
          ((1 / 2 : ℝ) • joinNextNormal path i) := by
      unfold resolveJoin
      rw [if_neg hfirst, if_neg hlast, if_pos (Or.inr hlt)]
    refine ⟨hbev, by rw [hbev]; rfl,
      mesh_triangles_length path closed limit, ?_⟩
    unfold bevelCount
    have hmem : i ∈ (List.range path.length).filter
        (fun j => isBevelJoin (resolveJoin path closed limit j)) := by
      rw [List.mem_filter]
      refine ⟨List.mem_range.mpr hi, ?_⟩
      rw [hbev]
      rfl
    have hne := List.ne_nil_of_mem hmem
    have hpos := List.length_pos.mpr hne
    omega

/-- Witness for C6 at the cusp path `[[0,0],[4,0],[0,3]]`, join 1,
limit 2: the miter offset has magnitude `sqrt 10 > 2`, so the join is a
bevel and the mesh carries at least one bevel triangle. -/
theorem claim_miter_bevel_policy_witness :
    1 ≤ bevelCount cuspPath false 2 :=
  ((claim_miter_bevel_policy cuspPath false 2 1 (by norm_num [cuspPath])
    (by simp) (by simp [cuspPath])).2 cusp_offset_large).2.2.2

/-- Witness for C2 at record 0 of the zig-zag result. -/
theorem claim_sharp_zigzag_finite_witness :
    (((generate_order_vectors sharpPath true).getD 0 (0, none)).2).isSome =
      true :=
  claim_sharp_zigzag_finite.2.2 0 (by norm_num)
